import Mathlib

/-!
Shallow embedding of the Winfall maintenance-optimization core (src/main.py):
the component health/cost model, the per-asset priority aggregation, the
cost-matrix builder, the repair-worthiness filter, the configuration update
callback, and the greedy route optimizer.  Dates are modelled as integer day
numbers (Python date subtraction yields exact day differences), money and
scores as rationals, and coordinates as reals.
-/

namespace Winfall

/-- Static data of `Component` (src/main.py lines 14-37) that feeds the derived
calculations.  `lifetime_days` is `lifetime_years * 365`; `installation_date`
is `none` when the Python object carries `None` as its install date;
`prediction_date` is the evaluation date. -/
structure Component where
  lifetime_days : ℤ
  installation_date : Option ℤ
  prediction_date : ℤ
  replacement_cost : ℚ
  salvage_value : ℚ
deriving DecidableEq

/-- Embeds `Component.calculate_remaining_lifetime` (lines 39-49).
With an install date present, `days_in_service = prediction_date - install`
and the result is `max(0, lifetime_days - days_in_service)`; note there is no
upper clamp, so a future install date yields more than `lifetime_days`.
With `installation_date = None`, the subtraction `date - None` raises
`TypeError`; the `except AttributeError` branch (which would return
`lifetime_days`) does not match, the generic `except Exception` branch does,
and it returns `0` after printing. -/
def calculate_remaining_lifetime (c : Component) : ℤ :=
  match c.installation_date with
  | some d => max 0 (c.lifetime_days - (c.prediction_date - d))
  | none => 0

/-- Embeds `Component.calculate_health_score` (lines 51-55). -/
def calculate_health_score (c : Component) : ℚ :=
  if 0 < c.lifetime_days then
    (calculate_remaining_lifetime c : ℚ) / (c.lifetime_days : ℚ)
  else 0

/-- Embeds `Component.calculate_failure_probability` (lines 57-59). -/
def calculate_failure_probability (c : Component) : ℚ :=
  1 - (calculate_health_score c) ^ 2

/-- Embeds `Component.calculate_repair_cost` (lines 61-73): the expected
repair spend `replacement_cost * failure_probability` plus a depreciation
loss, which is `(replacement_cost - salvage_value) * (1 - health_score)` when
`lifetime_days > 0` and `replacement_cost` otherwise. -/
def calculate_repair_cost (c : Component) : ℚ :=
  c.replacement_cost * calculate_failure_probability c +
    (if 0 < c.lifetime_days then
      (c.replacement_cost - c.salvage_value) * (1 - calculate_health_score c)
    else c.replacement_cost)

/-- A node as the map-level algorithms see it: `idx` stands for the object's
position in `Map.nodes` (Python object identity; `self.nodes.index` resolves
it), and `priority` is its `repair_priority_score`. -/
structure MapNode where
  idx : ℕ
  priority : ℚ
deriving DecidableEq

/-- Embeds `Node.meets_repair_threshold` (lines 155-157):
`repair_priority_score >= threshold_ratio`. -/
def meets_repair_threshold (nd : MapNode) (threshold : ℚ) : Bool :=
  decide (threshold ≤ nd.priority)

/-- Embeds `Map.filter_nodes_for_repair` (lines 265-271): keep the nodes that
meet the threshold, preserving input order. -/
def filter_nodes_for_repair (threshold : ℚ) (nodes : List MapNode) : List MapNode :=
  nodes.filter (fun nd => meets_repair_threshold nd threshold)

/-- The candidate score used inside `Map.optimize_route` (line 327-329):
`candidate.repair_priority_score / max(transport_cost, 1)`, where the
transport cost is the cost-matrix entry for (current, candidate) when the
matrix exists (`some f`, a function of the two endpoint nodes since matrix
indices are recovered with `self.nodes.index`) and `1` when it is `None`. -/
def routeScore (cm : Option (MapNode → MapNode → ℚ)) (cur cand : MapNode) : ℚ :=
  cand.priority / max (match cm with | some f => f cur cand | none => 1) 1

/-- Embeds Python `max(unvisited_nodes, key=...)` (line 316): scan left to
right, replacing the running maximum only on a strictly greater key, so the
first maximal element is returned. -/
def py_max (f : MapNode → ℚ) (x : MapNode) : List MapNode → MapNode
  | [] => x
  | y :: ys => if f x < f y then py_max f y ys else py_max f x ys

/-- Embeds the inner candidate scan of `Map.optimize_route` (lines 320-333):
`best_next_node = None`, `max_score = -1`, then each candidate whose score is
strictly greater than the running maximum replaces it. -/
def best_next_aux (f : MapNode → ℚ) (best : Option MapNode) (m : ℚ) :
    List MapNode → Option MapNode
  | [] => best
  | c :: cs =>
    if m < f c then best_next_aux f (some c) (f c) cs
    else best_next_aux f best m cs

/-- One selection round of `Map.optimize_route`: the scan started from
`best_next_node = None` and `max_score = -1`. -/
def best_next (f : MapNode → ℚ) (l : List MapNode) : Option MapNode :=
  best_next_aux f none (-1) l

/-- The `while unvisited_nodes:` loop of `Map.optimize_route` (lines 320-340),
written with fuel: each iteration selects `best_next`; if it is `None` the
loop breaks, otherwise the winner is appended, removed from the unvisited
list, and becomes the current position.  With `fuel ≥ unvisited.length` the
fuel never runs out before the Python loop would stop. -/
def route_loop (cm : Option (MapNode → MapNode → ℚ)) :
    ℕ → MapNode → List MapNode → List MapNode
  | 0, _, _ => []
  | fuel + 1, cur, unvisited =>
    match best_next (routeScore cm cur) unvisited with
    | none => []
    | some b => b :: route_loop cm fuel b (unvisited.erase b)

/-- Embeds `Map.optimize_route` (lines 310-343): empty input returns an empty
route; otherwise start at the first node of globally maximal priority and run
the greedy loop on the remaining nodes. -/
def optimize_route (cm : Option (MapNode → MapNode → ℚ))
    (filtered_nodes : List MapNode) : List MapNode :=
  match filtered_nodes with
  | [] => []
  | x :: xs =>
    let first := py_max (fun nd => nd.priority) x xs
    first :: route_loop cm xs.length first ((x :: xs).erase first)

/-- The coordinate pair of a node's `attributes` used by
`Map.generate_cost_matrix`. -/
structure Coord where
  latitude : ℝ
  longitude : ℝ

/-- The pairwise distance computed at line 250:
`sqrt((lat2 - lat1)**2 + (lon2 - lon1)**2)`. -/
noncomputable def node_distance (p q : Coord) : ℝ :=
  Real.sqrt ((q.latitude - p.latitude) ^ 2 + (q.longitude - p.longitude) ^ 2)

/-- Embeds `CostCalculator.calculate_transportation_cost` (lines 557-559):
`distance * cost_per_distance_unit`. -/
def calculate_transportation_cost (rate : ℝ) (distance : ℝ) : ℝ :=
  distance * rate

/-- Embeds the `distance_matrix` built by `Map.generate_cost_matrix`
(lines 238-254): entries start at zero and only the `i != j` entries are
filled with the planar distance, so the diagonal stays zero. -/
noncomputable def distance_matrix (nodes : List Coord)
    (i j : Fin nodes.length) : ℝ :=
  if i = j then 0 else node_distance (nodes.get i) (nodes.get j)

/-- Embeds the `cost_matrix` built by `Map.generate_cost_matrix`: the
transportation cost of the pairwise distance for `i != j`, zero on the
diagonal. -/
noncomputable def cost_matrix (rate : ℝ) (nodes : List Coord)
    (i j : Fin nodes.length) : ℝ :=
  if i = j then 0
  else calculate_transportation_cost rate (node_distance (nodes.get i) (nodes.get j))

/-- A node's coordinates as a point of the Euclidean plane, to state what the
matrix entries mean geometrically. -/
noncomputable def toPoint (c : Coord) : EuclideanSpace ℝ (Fin 2) :=
  ![c.latitude, c.longitude]

/-- The per-node cost totals that `Node.calculate_repair_priority_score`
reads (`total_repair_cost`, `total_opportunity_cost`). -/
structure NodeCosts where
  total_repair_cost : ℚ
  total_opportunity_cost : ℚ
deriving DecidableEq

/-- Embeds `Node.calculate_repair_priority_score` (lines 129-143) applied
with the average transport cost computed by the map.  `avg = none` models the
NaN that `np.mean` produces on an empty selection: every arithmetic result
involving it is NaN, the comparison `total_cost > 0` is then false, and the
score falls to the `else` branch, `0`. -/
def calculate_repair_priority_score (nd : NodeCosts) (avg : Option ℚ) : ℚ :=
  match avg with
  | none => 0
  | some a =>
    let total_benefit := nd.total_opportunity_cost + nd.total_repair_cost * 0.5
    let total_cost := nd.total_repair_cost + a
    if 0 < total_cost then total_benefit / total_cost else 0

/-- Embeds the average-transport-cost computation of
`Map.calculate_all_repair_priorities` (lines 256-263): the default `1000`
when the cost matrix is `None` or has size zero, otherwise
`np.mean(cost_matrix[cost_matrix > 0])` — which is NaN (`none`) when no entry
is strictly positive. -/
def avg_transport_cost (m : Option (List (List ℚ))) : Option ℚ :=
  match m with
  | none => some 1000
  | some mat =>
    if mat.flatten.length = 0 then some 1000
    else
      let pos := mat.flatten.filter (fun q => decide (0 < q))
      if pos.length = 0 then none
      else some (pos.sum / pos.length)

/-- Embeds `Map.calculate_all_repair_priorities` (lines 256-263): one shared
average transport cost is computed from the cost matrix, then every node's
priority score is computed with it. -/
def calculate_all_repair_priorities (nodes : List NodeCosts)
    (m : Option (List (List ℚ))) : List ℚ :=
  nodes.map (fun nd => calculate_repair_priority_score nd (avg_transport_cost m))

/-- The priority formula exactly as claim C10 words it, over a real-valued
average: `(total_opportunity_cost + 0.5 * total_repair_cost) /
(total_repair_cost + avg)` when the denominator is positive, else 0.  Used to
compare the claim's reading against the code. -/
def claimed_priority (nd : NodeCosts) (avg : ℚ) : ℚ :=
  let b := nd.total_opportunity_cost + 0.5 * nd.total_repair_cost
  let tc := nd.total_repair_cost + avg
  if 0 < tc then b / tc else 0

/-- The average transport cost as claim C10 words it: the mean of the
strictly positive entries when the matrix exists and is non-empty, and 1000
otherwise.  The mean is read as sum divided by count (a rational number; for
an empty selection that reading gives 0). -/
def claimed_avg_transport_cost (m : Option (List (List ℚ))) : ℚ :=
  match m with
  | none => 1000
  | some mat =>
    if mat.flatten.length = 0 then 1000
    else
      let pos := mat.flatten.filter (fun q => decide (0 < q))
      pos.sum / pos.length

/-- The tunables held by the evaluation session (`Map` plus its
`CostCalculator`): the prediction date, the repair threshold and the
cost-per-distance rate. -/
structure Session where
  prediction_day : ℤ
  repair_threshold : ℚ
  cost_per_distance : ℚ
deriving DecidableEq

/-- A submitted configuration value after parsing, one constructor per
interactive field of `Map.interactive_fields`.  `none` models a string that
`float(...)` or `strptime` rejects with `ValueError`. -/
inductive FieldInput where
  | dateVal (parsed : Option ℤ)
  | thresholdVal (parsed : Option ℚ)
  | costVal (parsed : Option ℚ)

/-- Embeds `Map._create_update_callback` (lines 518-547).  A malformed value
(`ValueError`) leaves the session unchanged; a parsed date earlier than today
is rejected; every successfully parsed float is stored verbatim via
`setattr`, with no range validation of any kind. -/
def submit_config (today : ℤ) (s : Session) : FieldInput → Session
  | .dateVal none => s
  | .dateVal (some d) => if d < today then s else { s with prediction_day := d }
  | .thresholdVal none => s
  | .thresholdVal (some v) => { s with repair_threshold := v }
  | .costVal none => s
  | .costVal (some v) => { s with cost_per_distance := v }

/-- The property "b is the first element of l attaining the maximum of f",
stated as a list decomposition: everything before b is strictly below f b and
everything after is at most f b. -/
def FirstMaxDecomp (f : MapNode → ℚ) (l : List MapNode) (b : MapNode) : Prop :=
  ∃ l1 l2, l = l1 ++ b :: l2 ∧ (∀ c ∈ l1, f c < f b) ∧ (∀ c ∈ l2, f c ≤ f b)

/-- Recursive characterization of "first maximum": either the head is maximal
and is chosen, or the head is strictly beaten and the first maximum of the
tail is chosen. -/
def first_max (f : MapNode → ℚ) : List MapNode → MapNode → Prop
  | [], _ => False
  | x :: xs, b => (b = x ∧ ∀ c ∈ xs, f c ≤ f x) ∨ (f x < f b ∧ first_max f xs b)

/-- Characterization of the winner of one `best_next` scan started above
threshold m: either the head wins (it clears m and nothing later beats it),
or the head is out of the running (at most m, or strictly beaten by the
eventual winner) and the tail's winner is chosen. -/
def fm_above (f : MapNode → ℚ) (m : ℚ) : List MapNode → MapNode → Prop
  | [], _ => False
  | x :: xs, b =>
    (b = x ∧ m < f x ∧ ∀ c ∈ xs, f c ≤ f x) ∨
    ((f x ≤ m ∨ f x < f b) ∧ fm_above f m xs b)

/-- The spec of the greedy visiting order: starting from `cur` with the given
unvisited pool, each successive route element is the first maximizer of the
route score measured from the current position, and is then removed from the
pool. -/
def GreedyChain (cm : Option (MapNode → MapNode → ℚ)) :
    MapNode → List MapNode → List MapNode → Prop
  | _, _, [] => True
  | cur, unvisited, y :: rest =>
    FirstMaxDecomp (routeScore cm cur) unvisited y ∧
      GreedyChain cm y (unvisited.erase y) rest

/-! Helper lemmas about the greedy selection primitives. -/

theorem py_max_ge (f : MapNode → ℚ) (ys : List MapNode) :
    ∀ x, f x ≤ f (py_max f x ys) := by
  induction ys with
  | nil => intro x; simp [py_max]
  | cons y ys ih =>
    intro x
    simp only [py_max]
    split
    · exact le_trans (le_of_lt (by assumption)) (ih y)
    · exact ih x

theorem py_max_first_max (f : MapNode → ℚ) (ys : List MapNode) :
    ∀ x, first_max f (x :: ys) (py_max f x ys) := by
  induction ys with
  | nil =>
    intro x
    simp [py_max, first_max]
  | cons y ys ih =>
    intro x
    simp only [py_max]
    by_cases h : f x < f y
    · rw [if_pos h]
      simp only [first_max]
      exact Or.inr ⟨lt_of_lt_of_le h (py_max_ge f ys y), ih y⟩
    · rw [if_neg h]
      have hyx : f y ≤ f x := le_of_not_lt h
      rcases ih x with ⟨hbx, hall⟩ | ⟨hlt, hfm⟩
      · refine Or.inl ⟨hbx, ?_⟩
        intro c hc
        rcases List.mem_cons.mp hc with rfl | hc
        · exact hyx
        · exact hall c hc
      · refine Or.inr ⟨hlt, ?_⟩
        simp only [first_max]
        exact Or.inr ⟨lt_of_le_of_lt hyx hlt, hfm⟩

theorem first_max_decomp (f : MapNode → ℚ) :
    ∀ (l : List MapNode) (b : MapNode), first_max f l b → FirstMaxDecomp f l b := by
  intro l
  induction l with
  | nil => intro b h; exact absurd h (by simp [first_max])
  | cons x xs ih =>
    intro b h
    rcases h with ⟨rfl, hall⟩ | ⟨hlt, hfm⟩
    · exact ⟨[], xs, rfl, by simp, hall⟩
    · obtain ⟨l1, l2, heq, h1, h2⟩ := ih b hfm
      refine ⟨x :: l1, l2, by rw [heq]; rfl, ?_, h2⟩
      intro c hc
      rcases List.mem_cons.mp hc with rfl | hc
      · exact hlt
      · exact h1 c hc

theorem decomp_mem (f : MapNode → ℚ) (l : List MapNode) (b : MapNode)
    (h : FirstMaxDecomp f l b) : b ∈ l := by
  obtain ⟨l1, l2, heq, -, -⟩ := h
  rw [heq]
  exact List.mem_append_right _ (List.mem_cons_self _ _)

theorem fm_above_lt (f : MapNode → ℚ) (m : ℚ) :
    ∀ (l : List MapNode) (b : MapNode), fm_above f m l b → m < f b := by
  intro l
  induction l with
  | nil => intro b h; exact absurd h (by simp [fm_above])
  | cons x xs ih =>
    intro b h
    rcases h with ⟨rfl, hm, -⟩ | ⟨-, hfm⟩
    · exact hm
    · exact ih b hfm

theorem fm_above_mono (f : MapNode → ℚ) {m m' : ℚ} (hmm : m ≤ m') :
    ∀ (l : List MapNode) (b : MapNode), fm_above f m' l b → fm_above f m l b := by
  intro l
  induction l with
  | nil => intro b h; exact absurd h (by simp [fm_above])
  | cons x xs ih =>
    intro b h
    simp only [fm_above] at h ⊢
    rcases h with ⟨rfl, hm, hall⟩ | ⟨hx, hfm⟩
    · exact Or.inl ⟨rfl, lt_of_le_of_lt hmm hm, hall⟩
    · refine Or.inr ⟨?_, ih b hfm⟩
      rcases hx with hle | hlt
      · exact Or.inr (lt_of_le_of_lt hle (fm_above_lt f m' xs b hfm))
      · exact Or.inr hlt

theorem fm_above_decomp (f : MapNode → ℚ) (m : ℚ) :
    ∀ (l : List MapNode) (b : MapNode), fm_above f m l b → FirstMaxDecomp f l b := by
  intro l
  induction l with
  | nil => intro b h; exact absurd h (by simp [fm_above])
  | cons x xs ih =>
    intro b h
    simp only [fm_above] at h
    rcases h with ⟨rfl, hm, hall⟩ | ⟨hx, hfm⟩
    · exact ⟨[], xs, rfl, by simp, hall⟩
    · obtain ⟨l1, l2, heq, h1, h2⟩ := ih b hfm
      have hxb : f x < f b := by
        rcases hx with hle | hlt
        · exact lt_of_le_of_lt hle (fm_above_lt f m xs b hfm)
        · exact hlt
      refine ⟨x :: l1, l2, by rw [heq]; rfl, ?_, h2⟩
      intro c hc
      rcases List.mem_cons.mp hc with rfl | hc
      · exact hxb
      · exact h1 c hc

theorem best_next_aux_seed (f : MapNode → ℚ) :
    ∀ (l : List MapNode) (m : ℚ) (a b : MapNode),
      best_next_aux f (some a) m l = some b →
      (b = a ∧ ∀ c ∈ l, f c ≤ m) ∨ fm_above f m l b := by
  intro l
  induction l with
  | nil =>
    intro m a b h
    simp only [best_next_aux, Option.some.injEq] at h
    exact Or.inl ⟨h.symm, by simp⟩
  | cons x xs ih =>
    intro m a b h
    simp only [best_next_aux] at h
    by_cases hx : m < f x
    · rw [if_pos hx] at h
      rcases ih (f x) x b h with ⟨rfl, hall⟩ | hfm
      · exact Or.inr (Or.inl ⟨rfl, hx, hall⟩)
      · exact Or.inr (Or.inr
          ⟨Or.inr (fm_above_lt f (f x) xs b hfm), fm_above_mono f (le_of_lt hx) xs b hfm⟩)
    · rw [if_neg hx] at h
      rcases ih m a b h with ⟨rfl, hall⟩ | hfm
      · refine Or.inl ⟨rfl, ?_⟩
        intro c hc
        rcases List.mem_cons.mp hc with rfl | hc
        · exact le_of_not_lt hx
        · exact hall c hc
      · exact Or.inr (Or.inr ⟨Or.inl (le_of_not_lt hx), hfm⟩)

theorem best_next_sound (f : MapNode → ℚ) :
    ∀ (l : List MapNode) (m : ℚ) (b : MapNode),
      best_next_aux f none m l = some b → fm_above f m l b := by
  intro l
  induction l with
  | nil => intro m b h; exact absurd h (by simp [best_next_aux])
  | cons x xs ih =>
    intro m b h
    simp only [best_next_aux] at h
    by_cases hx : m < f x
    · rw [if_pos hx] at h
      rcases best_next_aux_seed f xs (f x) x b h with ⟨rfl, hall⟩ | hfm
      · exact Or.inl ⟨rfl, hx, hall⟩
      · exact Or.inr
          ⟨Or.inr (fm_above_lt f (f x) xs b hfm), fm_above_mono f (le_of_lt hx) xs b hfm⟩
    · rw [if_neg hx] at h
      exact Or.inr ⟨Or.inl (le_of_not_lt hx), ih m b h⟩

theorem best_next_aux_some_seed (f : MapNode → ℚ) :
    ∀ (l : List MapNode) (m : ℚ) (a : MapNode),
      ∃ b, best_next_aux f (some a) m l = some b := by
  intro l
  induction l with
  | nil => intro m a; exact ⟨a, rfl⟩
  | cons x xs ih =>
    intro m a
    simp only [best_next_aux]
    by_cases hx : m < f x
    · rw [if_pos hx]; exact ih (f x) x
    · rw [if_neg hx]; exact ih m a

theorem best_next_progress (f : MapNode → ℚ) :
    ∀ (l : List MapNode) (m : ℚ) (best : Option MapNode),
      (∃ c ∈ l, m < f c) → ∃ b, best_next_aux f best m l = some b := by
  intro l
  induction l with
  | nil => intro m best h; simp at h
  | cons x xs ih =>
    intro m best h
    simp only [best_next_aux]
    by_cases hx : m < f x
    · rw [if_pos hx]; exact best_next_aux_some_seed f xs (f x) x
    · rw [if_neg hx]
      apply ih m best
      obtain ⟨c, hc, hmc⟩ := h
      rcases List.mem_cons.mp hc with rfl | hc
      · exact absurd hmc hx
      · exact ⟨c, hc, hmc⟩

theorem routeScore_gt_neg_one (cm : Option (MapNode → MapNode → ℚ))
    (cur cand : MapNode) (h : -1 < cand.priority) : -1 < routeScore cm cur cand := by
  unfold routeScore
  set t : ℚ := (match cm with | some f => f cur cand | none => 1) with ht
  have h1 : (1 : ℚ) ≤ max t 1 := le_max_right _ _
  have h0 : (0 : ℚ) < max t 1 := lt_of_lt_of_le one_pos h1
  rw [lt_div_iff₀ h0]
  calc (-1 : ℚ) * max t 1 = -(max t 1) := by ring
    _ ≤ -1 := by linarith
    _ < cand.priority := h

theorem route_loop_perm (cm : Option (MapNode → MapNode → ℚ)) :
    ∀ (fuel : ℕ) (cur : MapNode) (unvisited : List MapNode),
      unvisited.length ≤ fuel → (∀ c ∈ unvisited, -1 < c.priority) →
      (route_loop cm fuel cur unvisited).Perm unvisited := by
  intro fuel
  induction fuel with
  | zero =>
    intro cur unvisited hlen _
    have hnil : unvisited = [] := List.eq_nil_of_length_eq_zero (Nat.le_zero.mp hlen)
    subst hnil
    simp [route_loop]
  | succ n ih =>
    intro cur unvisited hlen hpr
    simp only [route_loop]
    cases hbn : best_next (routeScore cm cur) unvisited with
    | none =>
      cases unvisited with
      | nil => simp
      | cons u us =>
        exfalso
        obtain ⟨b, hb⟩ := best_next_progress (routeScore cm cur) (u :: us) (-1) none
          ⟨u, List.mem_cons_self u us,
            routeScore_gt_neg_one cm cur u (hpr u (List.mem_cons_self u us))⟩
        rw [best_next] at hbn
        rw [hbn] at hb
        cases hb
    | some b =>
      have hfm := best_next_sound (routeScore cm cur) unvisited (-1) b hbn
      have hbmem : b ∈ unvisited := decomp_mem _ _ _ (fm_above_decomp _ _ _ _ hfm)
      have hlen' : (unvisited.erase b).length ≤ n := by
        rw [List.length_erase_of_mem hbmem]
        omega
      have hpr' : ∀ c ∈ unvisited.erase b, -1 < c.priority :=
        fun c hc => hpr c (List.mem_of_mem_erase hc)
      have ihp := ih b (unvisited.erase b) hlen' hpr'
      exact (ihp.cons b).trans (List.perm_cons_erase hbmem).symm

theorem route_loop_chain (cm : Option (MapNode → MapNode → ℚ)) :
    ∀ (fuel : ℕ) (cur : MapNode) (unvisited : List MapNode),
      GreedyChain cm cur unvisited (route_loop cm fuel cur unvisited) := by
  intro fuel
  induction fuel with
  | zero => intro cur unvisited; simp [route_loop, GreedyChain]
  | succ n ih =>
    intro cur unvisited
    simp only [route_loop]
    cases hbn : best_next (routeScore cm cur) unvisited with
    | none => simp [GreedyChain]
    | some b =>
      refine ⟨?_, ih b (unvisited.erase b)⟩
      exact fm_above_decomp _ _ _ _ (best_next_sound (routeScore cm cur) unvisited (-1) b hbn)

theorem node_distance_eq_dist (p q : Coord) :
    node_distance p q = dist (toPoint p) (toPoint q) := by
  rw [EuclideanSpace.dist_eq]
  unfold node_distance toPoint
  rw [Fin.sum_univ_two]
  congr 1
  simp [Real.dist_eq, sq_abs]
  ring

theorem node_distance_comm (p q : Coord) : node_distance p q = node_distance q p := by
  rw [node_distance_eq_dist, node_distance_eq_dist, dist_comm]

theorem node_distance_self (p : Coord) : node_distance p p = 0 := by
  rw [node_distance_eq_dist, dist_self]

/-- The node priority score written with a real (non-NaN) average agrees with
the formula of claim C10. -/
theorem score_some_eq_claimed (nd : NodeCosts) (a : ℚ) :
    calculate_repair_priority_score nd (some a) = claimed_priority nd a := by
  simp only [calculate_repair_priority_score, claimed_priority]
  rw [mul_comm nd.total_repair_cost (0.5 : ℚ)]

/-! The claims. -/

/-- Claim C1.  The claim states that every component's computed health score
lies in [0, 1].  It is refuted by the code: a component installed 100 days
after the evaluation date with a 365-day rated lifetime gets remaining
lifetime 465 and health score 465/365 > 1, even though
`calculate_health_score`'s own docstring promises a 0-1 scale.  The
failure-probability identity of the claim does hold at this input. -/
theorem health_score_above_one_future_install :
    (1 : ℚ) < calculate_health_score ⟨365, some 100, 0, 0, 0⟩ ∧
    calculate_failure_probability ⟨365, some 100, 0, 0, 0⟩ =
      1 - calculate_health_score ⟨365, some 100, 0, 0, 0⟩ ^ 2 := by
  constructor
  · simp only [calculate_health_score, calculate_remaining_lifetime]
    norm_num
  · rfl

/-- Claim C2, counterexample.  The claim states that a component with
non-positive `lifetime_days` has repair cost `replacement_cost`; the code
also charges the expected-repair term `replacement_cost * failure_probability
= replacement_cost` (health is 0, failure probability 1), giving
`2 * replacement_cost`: 200 instead of 100 here. -/
theorem repair_cost_zero_lifetime_cex :
    calculate_repair_cost ⟨0, some 0, 0, 100, 30⟩ = 200 ∧
    calculate_repair_cost ⟨0, some 0, 0, 100, 30⟩ ≠ 100 := by
  have h : calculate_repair_cost ⟨0, some 0, 0, 100, 30⟩ = 200 := by
    simp only [calculate_repair_cost, calculate_failure_probability, calculate_health_score,
      calculate_remaining_lifetime]
    norm_num
  refine ⟨h, by rw [h]; norm_num⟩

/-- Claim C2, amended.  The repair cost is
`replacement_cost * failure_probability + (replacement_cost - salvage_value)
* (1 - health_score)` when `lifetime_days > 0`, and
`2 * replacement_cost` (not `replacement_cost`) when `lifetime_days` is not
positive; a fully worn component (remaining lifetime 0 with positive
`lifetime_days`) costs `replacement_cost + (replacement_cost -
salvage_value)`. -/
theorem repair_cost_characterization (c : Component) :
    (0 < c.lifetime_days →
      calculate_repair_cost c =
        c.replacement_cost * calculate_failure_probability c +
          (c.replacement_cost - c.salvage_value) * (1 - calculate_health_score c)) ∧
    (¬ 0 < c.lifetime_days → calculate_repair_cost c = 2 * c.replacement_cost) ∧
    (0 < c.lifetime_days → calculate_remaining_lifetime c = 0 →
      calculate_repair_cost c = c.replacement_cost + (c.replacement_cost - c.salvage_value)) := by
  refine ⟨?_, ?_, ?_⟩
  · intro h
    simp [calculate_repair_cost, if_pos h]
  · intro hn
    simp only [calculate_repair_cost, calculate_failure_probability, calculate_health_score,
      if_neg hn]
    ring
  · intro h h0
    have hh : calculate_health_score c = 0 := by
      simp [calculate_health_score, if_pos h, h0]
    simp only [calculate_repair_cost, calculate_failure_probability, if_pos h, hh]
    ring

/-- Witness for the amended claim C2, at the spec's own scenario (20-year
lifetime installed 10 years before evaluation, cost 200000, salvage 20000), a
zero-lifetime component, and a fully worn component. -/
theorem repair_cost_characterization_witness :
    calculate_repair_cost ⟨7300, some 0, 3650, 200000, 20000⟩ =
      200000 * calculate_failure_probability ⟨7300, some 0, 3650, 200000, 20000⟩ +
        (200000 - 20000) * (1 - calculate_health_score ⟨7300, some 0, 3650, 200000, 20000⟩) ∧
    calculate_repair_cost ⟨0, some 0, 0, 100, 30⟩ = 2 * 100 ∧
    calculate_repair_cost ⟨365, some 0, 365, 100, 30⟩ = 100 + (100 - 30) :=
  ⟨(repair_cost_characterization ⟨7300, some 0, 3650, 200000, 20000⟩).1 (by decide),
   (repair_cost_characterization ⟨0, some 0, 0, 100, 30⟩).2.1 (by decide),
   (repair_cost_characterization ⟨365, some 0, 365, 100, 30⟩).2.2 (by decide) (by decide)⟩

/-- Claim C3, counterexample.  The claim states that `optimize_route` returns
a permutation of any non-empty input.  It is refuted: with two nodes of
priority -2 (reachable, since priority scores can be negative and the
threshold is configurable without validation), every candidate score is at
most the loop's `-1` sentinel, `best_next_node` stays `None`, the loop
breaks, and the route contains only the start node. -/
theorem optimize_route_not_perm_cex :
    ¬ (optimize_route (some fun _ _ => 0) [⟨0, -2⟩, ⟨1, -2⟩]).Perm [⟨0, -2⟩, ⟨1, -2⟩] := by
  have h : optimize_route (some fun _ _ => 0) [⟨0, -2⟩, ⟨1, -2⟩] = [⟨0, -2⟩] := by
    norm_num [optimize_route, py_max, route_loop, best_next, best_next_aux, routeScore,
      List.erase]
  rw [h]
  intro hp
  have hlen := hp.length_eq
  simp at hlen

/-- Claim C3, amended.  `optimize_route` maps the empty list to the empty
route, and returns a permutation of its input (no duplicates, no omissions)
whenever every input priority score exceeds -1 — in particular for any
nonnegative priority scores; the original unconditional claim fails once a
score of -1 or below occurs (see the counterexample). -/
theorem optimize_route_perm (cm : Option (MapNode → MapNode → ℚ))
    (nodes : List MapNode) :
    optimize_route cm [] = [] ∧
    ((∀ c ∈ nodes, -1 < c.priority) → (optimize_route cm nodes).Perm nodes) := by
  refine ⟨rfl, ?_⟩
  intro hpr
  cases nodes with
  | nil => simp [optimize_route]
  | cons x xs =>
    simp only [optimize_route]
    have hmem : py_max (fun nd => nd.priority) x xs ∈ x :: xs :=
      decomp_mem _ _ _ (first_max_decomp _ _ _ (py_max_first_max (fun nd => nd.priority) xs x))
    have hlen : ((x :: xs).erase (py_max (fun nd => nd.priority) x xs)).length ≤ xs.length := by
      rw [List.length_erase_of_mem hmem]
      simp
    have hpr' : ∀ c ∈ (x :: xs).erase (py_max (fun nd => nd.priority) x xs),
        -1 < c.priority :=
      fun c hc => hpr c (List.mem_of_mem_erase hc)
    have hperm := route_loop_perm cm xs.length (py_max (fun nd => nd.priority) x xs) _ hlen hpr'
    exact (hperm.cons _).trans (List.perm_cons_erase hmem).symm

/-- Witness for the amended claim C3: two nodes with positive priorities are
routed as a permutation of the input. -/
theorem optimize_route_perm_witness :
    (optimize_route (some fun _ _ => 1) [⟨0, 1⟩, ⟨1, 2⟩]).Perm [⟨0, 1⟩, ⟨1, 2⟩] :=
  (optimize_route_perm (some fun _ _ => 1) [⟨0, 1⟩, ⟨1, 2⟩]).2 (by
    intro c hc
    rcases List.mem_cons.mp hc with rfl | hc
    · norm_num
    · rcases List.mem_cons.mp hc with rfl | hc
      · norm_num
      · simp at hc)

/-- Claim C4.  On any non-empty input the route starts at the first node
attaining the globally maximal priority score (strictly greater than every
node before it in input order, at least every node after it), and each
subsequent route element is, among the still-unvisited nodes in their current
order, the first node attaining the maximal value of
`priority / max(transport_cost(current, candidate), 1)` measured from the
current position. -/
theorem optimize_route_greedy_structure (f : MapNode → MapNode → ℚ)
    (x : MapNode) (xs : List MapNode) :
    ∃ h rest, optimize_route (some f) (x :: xs) = h :: rest ∧
      FirstMaxDecomp (fun nd => nd.priority) (x :: xs) h ∧
      GreedyChain (some f) h ((x :: xs).erase h) rest := by
  refine ⟨py_max (fun nd => nd.priority) x xs, _, rfl, ?_, ?_⟩
  · exact first_max_decomp _ _ _ (py_max_first_max (fun nd => nd.priority) xs x)
  · exact route_loop_chain (some f) xs.length _ _

/-- Claim C7.  The claim states that a component whose install date lies
after the evaluation date gets the full rated lifetime (clamped to
`lifetime_days`).  The code does not clamp: installed on day 20 and evaluated
on day 10 with a 365-day lifetime, the remaining lifetime is
`365 - (10 - 20) = 375`, which exceeds the rated lifetime. -/
theorem remaining_lifetime_future_install_unclamped :
    calculate_remaining_lifetime ⟨365, some 20, 10, 0, 0⟩ = 375 ∧
    365 < calculate_remaining_lifetime ⟨365, some 20, 10, 0, 0⟩ := by
  constructor <;> decide

/-- Claim C8.  The claim states that a missing install date falls back to the
full rated lifetime.  In the code, `prediction_date - None` raises
`TypeError`, which the intended `except AttributeError` branch (returning
`lifetime_days`) does not catch; the generic handler returns 0, so the
component is treated as fully worn instead of brand new. -/
theorem remaining_lifetime_missing_date_zero :
    calculate_remaining_lifetime ⟨365, none, 0, 0, 0⟩ = 0 ∧
    calculate_remaining_lifetime ⟨365, none, 0, 0, 0⟩ ≠ 365 := by
  constructor <;> decide

/-- Claim C5.  The distance and transport-cost matrices are symmetric with
zero diagonals, and every transport-cost entry is the planar Euclidean
distance between the two nodes' coordinates times the cost-per-distance
rate. -/
theorem cost_matrix_symm_euclidean (rate : ℝ) (nodes : List Coord)
    (i j : Fin nodes.length) :
    distance_matrix nodes i j = distance_matrix nodes j i ∧
    cost_matrix rate nodes i j = cost_matrix rate nodes j i ∧
    distance_matrix nodes i i = 0 ∧
    cost_matrix rate nodes i i = 0 ∧
    cost_matrix rate nodes i j = dist (toPoint (nodes.get i)) (toPoint (nodes.get j)) * rate := by
  refine ⟨?_, ?_, if_pos rfl, if_pos rfl, ?_⟩
  · unfold distance_matrix
    by_cases hij : i = j
    · subst hij; simp
    · rw [if_neg hij, if_neg (Ne.symm hij), node_distance_comm]
  · unfold cost_matrix
    by_cases hij : i = j
    · subst hij; simp
    · rw [if_neg hij, if_neg (Ne.symm hij), node_distance_comm]
  · unfold cost_matrix calculate_transportation_cost
    by_cases hij : i = j
    · subst hij
      rw [if_pos rfl, dist_self, zero_mul]
    · rw [if_neg hij, node_distance_eq_dist]

/-- Claim C6.  Raising the repair threshold can only shrink the set of
worthy nodes: at a higher threshold every selected node is also selected at
any lower threshold, and the number of selected nodes does not increase. -/
theorem filter_threshold_monotone (nodes : List MapNode) (t1 t2 : ℚ) (h : t1 ≤ t2) :
    (∀ nd ∈ filter_nodes_for_repair t2 nodes, nd ∈ filter_nodes_for_repair t1 nodes) ∧
    (filter_nodes_for_repair t2 nodes).length ≤ (filter_nodes_for_repair t1 nodes).length := by
  have hsub : List.Sublist (filter_nodes_for_repair t2 nodes)
      (filter_nodes_for_repair t1 nodes) := by
    apply List.monotone_filter_right
    intro a ha
    simp only [meets_repair_threshold, decide_eq_true_eq] at ha ⊢
    exact le_trans h ha
  exact ⟨fun nd hnd => hsub.mem hnd, hsub.length_le⟩

/-- Witness for claim C6 on a concrete asset collection and threshold pair. -/
theorem filter_threshold_monotone_witness :
    (∀ nd ∈ filter_nodes_for_repair 1 [⟨0, 0⟩, ⟨1, 2⟩],
      nd ∈ filter_nodes_for_repair 0 [⟨0, 0⟩, ⟨1, 2⟩]) ∧
    (filter_nodes_for_repair 1 [⟨0, 0⟩, ⟨1, 2⟩]).length ≤
      (filter_nodes_for_repair 0 [⟨0, 0⟩, ⟨1, 2⟩]).length :=
  filter_threshold_monotone [⟨0, 0⟩, ⟨1, 2⟩] 0 1 (by norm_num)

/-- Claim C9, counterexample.  The claim states that a negative
repair-threshold value submitted through the configuration surface is
rejected before mutating session state.  The callback performs no range
validation on float fields: submitting -1 replaces the prior threshold. -/
theorem negative_threshold_mutates_cex :
    submit_config 0 ⟨0, 1, 5⟩ (.thresholdVal (some (-1))) ≠ ⟨0, 1, 5⟩ ∧
    (submit_config 0 ⟨0, 1, 5⟩ (.thresholdVal (some (-1)))).repair_threshold = -1 := by
  constructor
  · intro h
    have := congrArg Session.repair_threshold h
    norm_num [submit_config] at this
  · rfl

/-- Claim C9, amended.  Malformed (unparseable) values are rejected without
mutating the session, and a parsed prediction date earlier than today is
rejected; but every successfully parsed numeric value — including negative
thresholds and non-positive cost rates — is stored verbatim, mutating the
session with no validation. -/
theorem submit_config_characterization (today : ℤ) (s : Session) :
    (submit_config today s (.dateVal none) = s) ∧
    (submit_config today s (.thresholdVal none) = s) ∧
    (submit_config today s (.costVal none) = s) ∧
    (∀ d : ℤ, d < today → submit_config today s (.dateVal (some d)) = s) ∧
    (∀ d : ℤ, today ≤ d →
      submit_config today s (.dateVal (some d)) = { s with prediction_day := d }) ∧
    (∀ v : ℚ, submit_config today s (.thresholdVal (some v)) = { s with repair_threshold := v }) ∧
    (∀ v : ℚ, submit_config today s (.costVal (some v)) = { s with cost_per_distance := v }) := by
  refine ⟨rfl, rfl, rfl, ?_, ?_, fun v => rfl, fun v => rfl⟩
  · intro d hd
    simp [submit_config, if_pos hd]
  · intro d hd
    simp [submit_config, if_neg (not_lt.mpr hd)]

/-- Witness for the amended claim C9: a past date is rejected, a valid date
is stored. -/
theorem submit_config_characterization_witness :
    submit_config 5 ⟨0, 1, 5⟩ (.dateVal (some 3)) = ⟨0, 1, 5⟩ ∧
    submit_config 5 ⟨0, 1, 5⟩ (.dateVal (some 7)) = ⟨7, 1, 5⟩ :=
  ⟨(submit_config_characterization 5 ⟨0, 1, 5⟩).2.2.2.1 3 (by decide),
   (submit_config_characterization 5 ⟨0, 1, 5⟩).2.2.2.2.1 7 (by decide)⟩

/-- Claim C10, counterexample.  With two assets at identical coordinates the
cost matrix is non-empty but all-zero, so the selection of strictly positive
entries is empty and `np.mean` yields NaN: every computed score is 0, while
the claimed formula — the mean of the (empty) positive-entry selection read
as a number — yields 1/2 for a node with repair cost 100 and opportunity
cost 0. -/
theorem priorities_nan_avg_cex :
    calculate_all_repair_priorities [⟨100, 0⟩, ⟨100, 0⟩] (some [[0, 0], [0, 0]]) = [0, 0] ∧
    claimed_priority ⟨100, 0⟩ (claimed_avg_transport_cost (some [[0, 0], [0, 0]])) = 1 / 2 ∧
    (0 : ℚ) ≠ 1 / 2 := by
  refine ⟨?_, ?_, by norm_num⟩
  · norm_num [calculate_all_repair_priorities, calculate_repair_priority_score,
      avg_transport_cost]
  · norm_num [claimed_priority, claimed_avg_transport_cost]

/-- Claim C10, amended.  All assets share one average transport cost: 1000
when the cost matrix is missing or empty; the mean of the strictly positive
entries when at least one entry is strictly positive; and NaN — making every
score 0 — when the matrix is non-empty with no strictly positive entry.
With a numeric average every score is `(total_opportunity_cost + 0.5 *
total_repair_cost) / (total_repair_cost + avg)` when that denominator is
positive and 0 otherwise. -/
theorem priorities_characterization (nodes : List NodeCosts)
    (m : Option (List (List ℚ))) :
    (m = none →
      calculate_all_repair_priorities nodes m =
        nodes.map (fun nd => claimed_priority nd 1000)) ∧
    (∀ mat, m = some mat → mat.flatten = [] →
      calculate_all_repair_priorities nodes m =
        nodes.map (fun nd => claimed_priority nd 1000)) ∧
    (∀ mat, m = some mat → (∃ q ∈ mat.flatten, 0 < q) →
      calculate_all_repair_priorities nodes m =
        nodes.map (fun nd => claimed_priority nd
          ((mat.flatten.filter (fun q => decide (0 < q))).sum /
            ((mat.flatten.filter (fun q => decide (0 < q))).length : ℚ)))) ∧
    (∀ mat, m = some mat → mat.flatten ≠ [] → (∀ q ∈ mat.flatten, q ≤ 0) →
      calculate_all_repair_priorities nodes m = nodes.map (fun _ => 0)) := by
  refine ⟨?_, ?_, ?_, ?_⟩
  · intro hm
    subst hm
    simp only [calculate_all_repair_priorities, avg_transport_cost, score_some_eq_claimed]
  · intro mat hm hflat
    subst hm
    have ha : avg_transport_cost (some mat) = some 1000 := by
      simp [avg_transport_cost, hflat]
    simp only [calculate_all_repair_priorities, ha, score_some_eq_claimed]
  · intro mat hm hq
    subst hm
    obtain ⟨q, hqmem, hqpos⟩ := hq
    have hflat : mat.flatten.length ≠ 0 := by
      intro h
      exact List.ne_nil_of_mem hqmem (List.eq_nil_of_length_eq_zero h)
    have hqfil : q ∈ mat.flatten.filter (fun q => decide (0 < q)) :=
      List.mem_filter.mpr ⟨hqmem, by simp [hqpos]⟩
    have hpos : (mat.flatten.filter (fun q => decide (0 < q))).length ≠ 0 := by
      intro h
      exact List.ne_nil_of_mem hqfil (List.eq_nil_of_length_eq_zero h)
    have ha : avg_transport_cost (some mat) =
        some ((mat.flatten.filter (fun q => decide (0 < q))).sum /
          ((mat.flatten.filter (fun q => decide (0 < q))).length : ℚ)) := by
      simp only [avg_transport_cost, if_neg hflat, if_neg hpos]
    simp only [calculate_all_repair_priorities, ha, score_some_eq_claimed]
  · intro mat hm hflat hall
    subst hm
    have hfil : mat.flatten.filter (fun q => decide (0 < q)) = [] := by
      rw [List.filter_eq_nil_iff]
      intro a ha
      simp only [decide_eq_true_eq, not_lt]
      exact hall a ha
    have hflen : mat.flatten.length ≠ 0 := by
      intro h
      exact hflat (List.eq_nil_of_length_eq_zero h)
    have ha : avg_transport_cost (some mat) = none := by
      simp only [avg_transport_cost, if_neg hflen, hfil]
      simp
    simp only [calculate_all_repair_priorities, ha, calculate_repair_priority_score]

/-- Witness for the amended claim C10, exercising the missing-matrix case,
the positive-entry case and the no-positive-entry (NaN) case. -/
theorem priorities_characterization_witness :
    calculate_all_repair_priorities [⟨100, 0⟩] none =
      [claimed_priority ⟨100, 0⟩ 1000] ∧
    calculate_all_repair_priorities [⟨100, 0⟩] (some [[0, 3]]) =
      [claimed_priority ⟨100, 0⟩
        ((([(0 : ℚ), 3].filter (fun q => decide (0 < q))).sum /
          (([(0 : ℚ), 3].filter (fun q => decide (0 < q))).length : ℚ)))] ∧
    calculate_all_repair_priorities [⟨100, 0⟩] (some [[0, 0]]) = [0] :=
  ⟨(priorities_characterization [⟨100, 0⟩] none).1 rfl,
   (priorities_characterization [⟨100, 0⟩] (some [[0, 3]])).2.2.1 [[0, 3]] rfl
     ⟨3, by simp, by norm_num⟩,
   (priorities_characterization [⟨100, 0⟩] (some [[0, 0]])).2.2.2 [[0, 0]] rfl
     (by simp) (by
       intro q hq
       simp at hq
       rw [hq])⟩

end Winfall
